import Mathlib

set_option maxHeartbeats 1000000

/-!
Shallow embedding of the NPC registry module (src/npc.c of naev).

The registry is a global state holding an id generator (a C unsigned int,
modelled as a Nat taken modulo 2^32 at each increment) and an optional
backing list (the array pointer, with Option.none standing for NULL).

External collaborators (mission subsystem, event subsystem, image loader,
dialogue sink) are modelled as parameters: the mission list fed to
npc_generate, the mission_accept outcome fed to npc_approach, the loaded
portrait handle fed to npc_add_mission and npc_add_event, and the
player_missions occupancy predicate.
-/

/-- Modulus of the C type unsigned int (32-bit): id arithmetic wraps at
this bound, as in `new_npc->id = ++npc_array_idgen`. -/
def UINT_MOD : Nat := 4294967296

/-- NPC types (enum NPCtype_ in npc.c). -/
inductive NPCtype where
  | null
  | giver
  | mission
  | event
deriving DecidableEq

/-- The part of a Mission descriptor that npc.c reads: its id (compared in
npc_rm_mission), the npc display name, description and portrait handle
(duplicated in npc_add_giver), and the availability priority
(misn->data->avail.priority). -/
structure Mission where
  id : Nat
  npc : String
  desc : String
  portrait : Nat
  dataPriority : Int
deriving DecidableEq

/-- The tagged union u of struct NPC_s: a full Mission copy for givers,
a mission reference plus callback name for mission NPCs, an event id plus
callback name for event NPCs. -/
inductive NPCunion where
  | g (m : Mission)
  | m (misn : Mission) (func : String)
  | e (evtId : Nat) (func : String)
deriving DecidableEq

/-- struct NPC_s: id, type tag, priority, owned name, portrait handle,
owned description, and the union payload. -/
structure NPC_t where
  id : Nat
  type : NPCtype
  priority : Int
  name : String
  portrait : Nat
  desc : String
  u : NPCunion
deriving DecidableEq

/-- Reading npc->u.e.id (meaningful when the record is event-kind). -/
def NPC_t.uEvtId (n : NPC_t) : Nat :=
  match n.u with
  | NPCunion.e evtId _ => evtId
  | _ => 0

/-- Reading npc->u.m.misn->id (meaningful when the record is mission-kind). -/
def NPC_t.uMisnId (n : NPC_t) : Nat :=
  match n.u with
  | NPCunion.m misn _ => misn.id
  | _ => 0

/-- The module state: npc_array_idgen and npc_array (Option.none = NULL). -/
structure NPCState where
  idgen : Nat
  arr : Option (List NPC_t)
deriving DecidableEq

/-- The state at process start: generator 0, array NULL. -/
def freshState : NPCState := { idgen := 0, arr := Option.none }

/-- Modelled from the spec: array_size lives in array.h, which is not part
of the provided source; per the specification, size queries on an
uninitialized (NULL) collection degrade gracefully to 0. -/
def array_size (a : Option (List NPC_t)) : Nat :=
  match a with
  | Option.none => 0
  | some l => l.length

/-- npc_add: returns 0 and leaves the state alone unless landed; otherwise
creates the array if NULL, appends a copy of the record, stamps it with the
incremented generator (unsigned wraparound) and returns that id. -/
def npc_add (landed : Bool) (npc : NPC_t) (s : NPCState) : Nat × NPCState :=
  if landed then
    ((s.idgen + 1) % UINT_MOD,
     { idgen := (s.idgen + 1) % UINT_MOD,
       arr := some (s.arr.getD [] ++ [{ npc with id := (s.idgen + 1) % UINT_MOD }]) })
  else (0, s)

/-- npc_add_giver: builds a giver record by duplicating the mission's npc
name, description and portrait, copying the mission by value into the
union, and taking the priority from misn->data->avail.priority. -/
def npc_add_giver (landed : Bool) (misn : Mission) (s : NPCState) : Nat × NPCState :=
  npc_add landed
    { id := 0, type := NPCtype.giver, priority := misn.dataPriority,
      name := misn.npc, portrait := misn.portrait, desc := misn.desc,
      u := NPCunion.g misn } s

/-- npc_add_mission: builds a mission record storing the mission pointer
and a duplicated callback name; the portrait argument stands for the
texture handle returned by gl_newImage on the given path. -/
def npc_add_mission (landed : Bool) (misn : Mission) (func : String) (name : String)
    (priority : Int) (portrait : Nat) (desc : String) (s : NPCState) : Nat × NPCState :=
  npc_add landed
    { id := 0, type := NPCtype.mission, priority := priority, name := name,
      portrait := portrait, desc := desc, u := NPCunion.m misn func } s

/-- npc_add_event: builds an event record storing the event id and a
duplicated callback name. -/
def npc_add_event (landed : Bool) (evt : Nat) (func : String) (name : String)
    (priority : Int) (portrait : Nat) (desc : String) (s : NPCState) : Nat × NPCState :=
  npc_add landed
    { id := 0, type := NPCtype.event, priority := priority, name := name,
      portrait := portrait, desc := desc, u := NPCunion.e evt func } s

/-- The linear scan shared by npc_rm_event and npc_rm_mission: npc_arrayGet
finds the first record with the given id; if none exists or the kind check
on the found record fails the removal fails (Option.none); otherwise the
found record is erased in place (npc_free plus array_erase in npc_rm). -/
def npc_rm_scan (check : NPC_t → Bool) (id : Nat) : List NPC_t → Option (List NPC_t)
  | [] => Option.none
  | x :: xs =>
    if x.id = id then
      if check x then some xs else Option.none
    else
      (npc_rm_scan check id xs).map (fun l => x :: l)

/-- The kind check of npc_rm_event on the found record: event-kind and
stored event id equal to the given one. -/
def evtCheck (evt : Nat) (n : NPC_t) : Bool :=
  decide (n.type = NPCtype.event ∧ n.uEvtId = evt)

/-- The kind check of npc_rm_mission on the found record: mission-kind and
stored mission id equal to the given mission's id. -/
def misnCheck (mid : Nat) (n : NPC_t) : Bool :=
  decide (n.type = NPCtype.mission ∧ n.uMisnId = mid)

/-- npc_rm_event: -1 when the id is unknown, the record is not event-kind,
or its stored event id differs; else removes the record and returns 0. -/
def npc_rm_event (id : Nat) (evt : Nat) (s : NPCState) : Int × NPCState :=
  match npc_rm_scan (evtCheck evt) id (s.arr.getD []) with
  | Option.none => (-1, s)
  | some l => (0, { s with arr := some l })

/-- npc_rm_mission: -1 when the id is unknown, the record is not
mission-kind, or the stored mission's id differs from the given mission's
id; else removes the record and returns 0. -/
def npc_rm_mission (id : Nat) (misn : Mission) (s : NPCState) : Int × NPCState :=
  match npc_rm_scan (misnCheck misn.id) id (s.arr.getD []) with
  | Option.none => (-1, s)
  | some l => (0, { s with arr := some l })

/-- npc_compare: three-way comparison on priority only. -/
def npc_compare (a b : NPC_t) : Int :=
  if a.priority > b.priority then 1
  else if a.priority < b.priority then -1
  else 0

/-- Ordered insertion driven by npc_compare. -/
def npc_insert (n : NPC_t) : List NPC_t → List NPC_t
  | [] => [n]
  | x :: xs => if npc_compare n x ≤ 0 then n :: x :: xs else x :: npc_insert n xs

/-- The qsort call in npc_sort, modelled as insertion sort with the
npc_compare comparator: any comparator-conformant sort leaves the list
ordered by ascending priority. -/
def npc_sortList : List NPC_t → List NPC_t
  | [] => []
  | x :: xs => npc_insert x (npc_sortList xs)

/-- npc_sort: sorts the array by npc_compare when it is not NULL. -/
def npc_sort (s : NPCState) : NPCState :=
  match s.arr with
  | Option.none => s
  | some l => { s with arr := some (npc_sortList l) }

/-- npc_generate: adds a giver for each mission produced by the external
missions_genList call, then sorts the whole array. -/
def npc_generate (landed : Bool) (missions : List Mission) (s : NPCState) : NPCState :=
  npc_sort (missions.foldl (fun st m => (npc_add_giver landed m st).snd) s)

/-- npc_clear: frees every record and resizes the array to 0, keeping the
backing storage; no-op on a NULL array. -/
def npc_clear (s : NPCState) : NPCState :=
  match s.arr with
  | Option.none => s
  | some _ => { s with arr := some [] }

/-- npc_freeAll: npc_clear, then frees the array and resets it to NULL. -/
def npc_freeAll (s : NPCState) : NPCState :=
  { npc_clear s with arr := Option.none }

/-- npc_getArraySize: 0 on a NULL array, else the array size (a C int). -/
def npc_getArraySize (s : NPCState) : Int :=
  match s.arr with
  | Option.none => 0
  | some l => l.length

/-- npc_getName: NULL out of bounds, else the record's name pointer. -/
def npc_getName (i : Int) (s : NPCState) : Option String :=
  if i < 0 ∨ npc_getArraySize s ≤ i then Option.none
  else ((s.arr.getD [])[i.toNat]?).map (fun n => n.name)

/-- npc_getTexture: NULL out of bounds, else the record's portrait. -/
def npc_getTexture (i : Int) (s : NPCState) : Option Nat :=
  if i < 0 ∨ npc_getArraySize s ≤ i then Option.none
  else ((s.arr.getD [])[i.toNat]?).map (fun n => n.portrait)

/-- npc_getDesc: NULL out of bounds, else the record's description. -/
def npc_getDesc (i : Int) (s : NPCState) : Option String :=
  if i < 0 ∨ npc_getArraySize s ≤ i then Option.none
  else ((s.arr.getD [])[i.toNat]?).map (fun n => n.desc)

/-- Modelled from the spec: MISSION_MAX, the fixed maximum number of
active player mission slots, is defined outside the provided source; its
exact value does not affect any claim. -/
def MISSION_MAX : Nat := 6

/-- The slot scan of npc_approach_giver: slots are full exactly when every
player_missions entry below MISSION_MAX has non-NULL data (pm i = true
stands for player_missions[i].data != NULL). -/
def player_slots_full (pm : Nat → Bool) : Bool :=
  (List.range MISSION_MAX).all (fun i => pm i)

/-- npc_approach_giver at array index i: -1 with no mutation when the
player mission slots are full; otherwise the external mission_accept
outcome decides: 0, 2 or -1 consume the record (freed and erased, return
1), anything else leaves the registry unchanged (return 0). -/
def npc_approach_giver (pm : Nat → Bool) (accept : Int) (i : Nat) (s : NPCState) : Int × NPCState :=
  if player_slots_full pm then (-1, s)
  else if accept = 0 ∨ accept = 2 ∨ accept = -1 then
    (1, { s with arr := some ((s.arr.getD []).eraseIdx i) })
  else (0, s)

/-- npc_approach: bounds check, then dispatch on the record kind; mission
and event records run their external callback and stay in the registry
(return 0); an invalid kind warns and returns -1. -/
def npc_approach (pm : Nat → Bool) (accept : Int) (i : Int) (s : NPCState) : Int × NPCState :=
  if i < 0 ∨ npc_getArraySize s ≤ i then (-1, s)
  else
    match (s.arr.getD [])[i.toNat]? with
    | Option.none => (-1, s)
    | some n =>
      match n.type with
      | NPCtype.giver => npc_approach_giver pm accept i.toNat s
      | NPCtype.mission => (0, s)
      | NPCtype.event => (0, s)
      | NPCtype.null => (-1, s)

/-- Running a sequence of adds in the landed context (used to speak about
the ids a sequence of successful adds issues). -/
def addSeq (l : List NPC_t) (s : NPCState) : NPCState :=
  l.foldl (fun st n => (npc_add true n st).snd) s

/-- A sample mission descriptor used in concrete evaluations. -/
def misnC7 : Mission := { id := 42, npc := "a", desc := "b", portrait := 3, dataPriority := 2 }

/-- Sortedness by ascending priority of adjacent pairs, the order the spec
requires after npc_generate. -/
def npc_sorted : List NPC_t → Bool
  | [] => true
  | [_] => true
  | a :: b :: rest => decide (a.priority ≤ b.priority) && npc_sorted (b :: rest)

/-- A mission with a given availability priority, for the generate example. -/
def mC2 (p : Int) : Mission := { id := 0, npc := "g", desc := "d", portrait := 0, dataPriority := p }

/-- A concrete event-kind record (event id 7). -/
def npcC1 : NPC_t :=
  { id := 3, type := NPCtype.event, priority := 0, name := "n", portrait := 1,
    desc := "d", u := NPCunion.e 7 "f" }

/-- A registry holding exactly npcC1. -/
def stC1 : NPCState := { idgen := 3, arr := some [npcC1] }

/-- A concrete mission-kind record referencing misnC7. -/
def npcC10 : NPC_t :=
  { id := 4, type := NPCtype.mission, priority := 1, name := "m", portrait := 2,
    desc := "e", u := NPCunion.m misnC7 "fn" }

/-- A registry holding exactly npcC10. -/
def stC10 : NPCState := { idgen := 9, arr := some [npcC10] }

/-- A concrete giver-kind record. -/
def npcC3 : NPC_t :=
  { id := 1, type := NPCtype.giver, priority := 0, name := "p", portrait := 0,
    desc := "q", u := NPCunion.g misnC7 }

/-- A registry holding exactly npcC3. -/
def stC3 : NPCState := { idgen := 1, arr := some [npcC3] }

/-- A registry with one record, for the accessor bounds witness. -/
def stC8 : NPCState := { idgen := 2, arr := some [npcC1] }

/-- A throwaway record used to drive the long add sequence of the id
wraparound counterexample. -/
def cexNPC : NPC_t :=
  { id := 0, type := NPCtype.event, priority := 0, name := "c", portrait := 0,
    desc := "c", u := NPCunion.e 1 "c" }

/-- C6: npc_add_giver returns the invalid id 0 and appends nothing when not
landed; when landed it appends a giver record built by duplicating the
mission's npc name, description and portrait, copying the mission by value,
and stamping the freshly generated id. -/
theorem npc_add_giver_spec (misn : Mission) (s : NPCState) :
  npc_add_giver false misn s = (0, s) ∧
  npc_add_giver true misn s =
    ((s.idgen + 1) % UINT_MOD,
     { idgen := (s.idgen + 1) % UINT_MOD,
       arr := some (s.arr.getD [] ++
         [{ id := (s.idgen + 1) % UINT_MOD, type := NPCtype.giver,
            priority := misn.dataPriority, name := misn.npc,
            portrait := misn.portrait, desc := misn.desc,
            u := NPCunion.g misn }]) }) :=
  ⟨rfl, rfl⟩

/-- C7 counterexample: npc_add_mission does depend on the landed context;
called while not landed it returns the invalid id 0 and appends no record,
refuting the claim that it returns a fresh id regardless of context. -/
theorem npc_add_mission_not_landed_cex :
  npc_add_mission false misnC7 "f" "n" 1 5 "d" freshState = (0, freshState) := rfl

/-- C7 amended: when landed, npc_add_mission returns the freshly
incremented generator value as id and appends a record storing the mission
pointer and duplicated callback name; when not landed it returns 0 and
appends nothing. -/
theorem npc_add_mission_spec (misn : Mission) (func : String) (name : String)
    (priority : Int) (portrait : Nat) (desc : String) (s : NPCState) :
  npc_add_mission false misn func name priority portrait desc s = (0, s) ∧
  npc_add_mission true misn func name priority portrait desc s =
    ((s.idgen + 1) % UINT_MOD,
     { idgen := (s.idgen + 1) % UINT_MOD,
       arr := some (s.arr.getD [] ++
         [{ id := (s.idgen + 1) % UINT_MOD, type := NPCtype.mission,
            priority := priority, name := name, portrait := portrait,
            desc := desc, u := NPCunion.m misn func }]) }) :=
  ⟨rfl, rfl⟩

/-- C9: after npc_clear the size is 0; npc_freeAll resets the array to
NULL; a further npc_add on the freed state creates a new one-element
backing collection exactly when landed, just as npc_add on the fresh
initial state does. -/
theorem npc_clear_freeAll_fresh (s : NPCState) :
  npc_getArraySize (npc_clear s) = 0 ∧
  (npc_freeAll s).arr = Option.none ∧
  (∀ (landed : Bool) (npc : NPC_t),
     (npc_add landed npc (npc_freeAll s)).snd.arr =
       (if landed then some [{ npc with id := (s.idgen + 1) % UINT_MOD }] else Option.none) ∧
     (npc_add landed npc freshState).snd.arr =
       (if landed then some [{ npc with id := 1 }] else Option.none)) := by
  refine ⟨?_, ?_, ?_⟩
  · cases h : s.arr <;> simp [npc_clear, npc_getArraySize, h]
  · rfl
  · intro landed npc
    cases landed <;> cases h : s.arr <;>
      simp [npc_add, npc_freeAll, npc_clear, freshState, UINT_MOD, h]

/-- The npc_compare comparator reports non-positive exactly on
priority-ordered pairs. -/
theorem npc_compare_le (a b : NPC_t) : npc_compare a b ≤ 0 ↔ a.priority ≤ b.priority := by
  unfold npc_compare
  split_ifs with h1 h2 <;> norm_num <;> omega

/-- Inserting into a priority-sorted list keeps it priority-sorted. -/
theorem npc_sorted_insert (n : NPC_t) :
    ∀ (l : List NPC_t), npc_sorted l = true → npc_sorted (npc_insert n l) = true := by
  intro l
  induction l with
  | nil => intro _; rfl
  | cons x xs ih =>
    intro h
    by_cases hc : npc_compare n x ≤ 0
    · have h1 : n.priority ≤ x.priority := (npc_compare_le n x).mp hc
      cases xs with
      | nil => simp [npc_insert, hc, npc_sorted, h1]
      | cons y ys =>
        simp [npc_sorted] at h
        simp [npc_insert, hc, npc_sorted, h1, h.1, h.2]
    · have h1 : x.priority ≤ n.priority := by
        by_contra hx
        push_neg at hx
        exact hc ((npc_compare_le n x).mpr (le_of_lt hx))
      cases xs with
      | nil => simp [npc_insert, hc, npc_sorted, h1]
      | cons y ys =>
        simp [npc_sorted] at h
        have hins := ih (by simp [npc_sorted, h.1, h.2])
        by_cases hcy : npc_compare n y ≤ 0
        · have h2 : n.priority ≤ y.priority := (npc_compare_le n y).mp hcy
          simp [npc_insert, hc, hcy, npc_sorted, h1, h2, h.1, h.2]
        · simp [npc_insert, hcy] at hins
          simp [npc_insert, hc, hcy, npc_sorted, h.1]
          exact hins

/-- The modelled qsort output is sorted by ascending priority. -/
theorem npc_sortList_sorted : ∀ l : List NPC_t, npc_sorted (npc_sortList l) = true := by
  intro l
  induction l with
  | nil => rfl
  | cons x xs ih => simpa [npc_sortList] using npc_sorted_insert x (npc_sortList xs) ih

/-- C2: after npc_generate the registry is sorted by ascending priority on
every adjacent pair, and adding givers with priorities 5, 1, 3 to a fresh
registry produces records in priority order 1, 3, 5. -/
theorem npc_generate_sorted :
  (∀ (landed : Bool) (missions : List Mission) (s : NPCState),
      npc_sorted ((npc_generate landed missions s).arr.getD []) = true) ∧
  ((npc_generate true [mC2 5, mC2 1, mC2 3] freshState).arr.getD []).map
      (fun n => n.priority) = [1, 3, 5] := by
  constructor
  · intro landed missions s
    unfold npc_generate
    generalize (missions.foldl (fun st m => (npc_add_giver landed m st).snd) s) = s2
    cases h : s2.arr <;> simp [npc_sort, h, npc_sortList_sorted, npc_sorted]
  · decide

/-- When no record carries the requested id, the removal scan fails. -/
theorem npc_rm_scan_not_found (check : NPC_t → Bool) (id : Nat) :
    ∀ l : List NPC_t, l.find? (fun n => decide (n.id = id)) = Option.none →
      npc_rm_scan check id l = Option.none := by
  intro l
  induction l with
  | nil => intro _; rfl
  | cons x xs ih =>
    intro h
    by_cases hx : x.id = id
    · simp [List.find?, hx] at h
    · have h2 : xs.find? (fun n => decide (n.id = id)) = Option.none := by
        rw [List.find?_eq_none] at h ⊢
        intro a ha
        exact h a (List.mem_cons_of_mem x ha)
      simp [npc_rm_scan, hx, ih h2]

/-- When the first record with the requested id exists, the removal scan
fails exactly when that record flunks the kind check, and otherwise erases
exactly that record. -/
theorem npc_rm_scan_found (check : NPC_t → Bool) (id : Nat) :
    ∀ (l : List NPC_t) (npc : NPC_t),
      l.find? (fun n => decide (n.id = id)) = some npc →
      (check npc = false → npc_rm_scan check id l = Option.none) ∧
      (check npc = true →
        npc_rm_scan check id l = some (l.eraseP (fun n => decide (n.id = id)))) := by
  intro l
  induction l with
  | nil => intro npc h; simp [List.find?] at h
  | cons x xs ih =>
    intro npc h
    by_cases hx : x.id = id
    · have hxnpc : npc = x := by
        simp [List.find?, hx] at h
        exact h.symm
      subst hxnpc
      constructor
      · intro hcf
        simp [npc_rm_scan, hx, hcf]
      · intro hct
        simp [npc_rm_scan, hx, hct, List.eraseP_cons]
    · have h2 : xs.find? (fun n => decide (n.id = id)) = some npc := by
        simpa [List.find?, hx] using h
      have hih := ih npc h2
      constructor
      · intro hcf
        simp [npc_rm_scan, hx, hih.1 hcf]
      · intro hct
        simp [npc_rm_scan, hx, hih.2 hct, List.eraseP_cons]

/-- C1: npc_rm_event and npc_rm_mission fail with -1 and leave the registry
unchanged when the id is unknown, when the found record has the wrong kind,
or when its stored event id resp. mission id differs from the given one;
otherwise they return 0 and remove exactly the found record. -/
theorem npc_rm_checked_removal (s : NPCState) (id : Nat) (evt : Nat) (misn : Mission) :
  ((s.arr.getD []).find? (fun n => decide (n.id = id)) = Option.none →
      npc_rm_event id evt s = (-1, s) ∧ npc_rm_mission id misn s = (-1, s)) ∧
  (∀ npc : NPC_t, (s.arr.getD []).find? (fun n => decide (n.id = id)) = some npc →
    (¬(npc.type = NPCtype.event ∧ npc.uEvtId = evt) →
        npc_rm_event id evt s = (-1, s)) ∧
    ((npc.type = NPCtype.event ∧ npc.uEvtId = evt) →
        npc_rm_event id evt s =
          (0, { s with arr := some ((s.arr.getD []).eraseP (fun n => decide (n.id = id))) })) ∧
    (¬(npc.type = NPCtype.mission ∧ npc.uMisnId = misn.id) →
        npc_rm_mission id misn s = (-1, s)) ∧
    ((npc.type = NPCtype.mission ∧ npc.uMisnId = misn.id) →
        npc_rm_mission id misn s =
          (0, { s with arr := some ((s.arr.getD []).eraseP (fun n => decide (n.id = id))) }))) := by
  constructor
  · intro h
    have h1 := npc_rm_scan_not_found (evtCheck evt) id _ h
    have h2 := npc_rm_scan_not_found (misnCheck misn.id) id _ h
    constructor
    · unfold npc_rm_event
      rw [h1]
    · unfold npc_rm_mission
      rw [h2]
  · intro npc hfind
    have he := npc_rm_scan_found (evtCheck evt) id _ npc hfind
    have hm := npc_rm_scan_found (misnCheck misn.id) id _ npc hfind
    refine ⟨?_, ?_, ?_, ?_⟩
    · intro hno
      have hd : evtCheck evt npc = false := by simpa [evtCheck] using hno
      unfold npc_rm_event
      rw [he.1 hd]
    · intro hyes
      have hd : evtCheck evt npc = true := by simpa [evtCheck] using hyes
      unfold npc_rm_event
      rw [he.2 hd]
    · intro hno
      have hd : misnCheck misn.id npc = false := by simpa [misnCheck] using hno
      unfold npc_rm_mission
      rw [hm.1 hd]
    · intro hyes
      have hd : misnCheck misn.id npc = true := by simpa [misnCheck] using hyes
      unfold npc_rm_mission
      rw [hm.2 hd]

/-- C1 witness: on a registry holding the single event record npcC1 (id 3,
event id 7), removal with the matching pair succeeds and empties the
registry. -/
theorem npc_rm_checked_removal_witness :
  npc_rm_event 3 7 stC1 = (0, { stC1 with arr := some [] }) := by
  have h := ((npc_rm_checked_removal stC1 3 7 misnC7).2 npcC1 (by decide)).2.1 (by decide)
  rw [h]
  decide

/-- The array size is always the length of the list the NULL-defaulted
array read yields. -/
theorem npc_getArraySize_eq (s : NPCState) :
    npc_getArraySize s = ((s.arr.getD []).length : Int) := by
  cases h : s.arr <;> simp [npc_getArraySize, h]

/-- A successful removal scan splits the list around the erased record. -/
theorem npc_rm_scan_decomp (check : NPC_t → Bool) (id : Nat) :
    ∀ (l r : List NPC_t), npc_rm_scan check id l = some r →
      ∃ pre x post, l = pre ++ x :: post ∧ r = pre ++ post := by
  intro l
  induction l with
  | nil => intro r h; simp [npc_rm_scan] at h
  | cons a as ih =>
    intro r h
    by_cases ha : a.id = id
    · by_cases hc : check a
      · refine ⟨[], a, as, rfl, ?_⟩
        simp [npc_rm_scan, ha, hc] at h
        exact h.symm
      · simp [npc_rm_scan, ha, hc] at h
    · simp [npc_rm_scan, ha] at h
      obtain ⟨l2, hl2, hr⟩ := h
      obtain ⟨pre, x, post, h1, h2⟩ := ih l2 hl2
      exact ⟨a :: pre, x, post, by simp [h1], by simp [← hr, h2]⟩

/-- The state shape after a successful removal scan: the registry list is
split around the erased record and the size drops by one. -/
theorem npc_rm_pair_frame (check : NPC_t → Bool) (id : Nat) (s s2 : NPCState)
    (r : List NPC_t) (hscan : npc_rm_scan check id (s.arr.getD []) = some r)
    (hs2 : s2 = { s with arr := some r }) :
    ∃ pre x post, s.arr.getD [] = pre ++ x :: post ∧ s2.arr = some (pre ++ post) ∧
      npc_getArraySize s2 + 1 = npc_getArraySize s := by
  obtain ⟨pre, x, post, h1, h2⟩ := npc_rm_scan_decomp check id _ r hscan
  have hs : s.arr = some (pre ++ x :: post) := by
    cases harr : s.arr with
    | none => rw [harr] at h1; simp at h1
    | some l => rw [harr] at h1; simp at h1 ⊢; exact h1
  refine ⟨pre, x, post, h1, by simp [hs2, h2], ?_⟩
  rw [npc_getArraySize_eq, npc_getArraySize_eq, hs2, hs, h2]
  push_cast
  simp [List.length_append]
  omega

/-- C10: every successful npc_rm_event or npc_rm_mission removes exactly
one record: the list splits as pre ++ removed :: post before and becomes
pre ++ post after, so the size drops by exactly one, every other record is
untouched and the relative order of the remaining records is preserved. -/
theorem npc_rm_success_frame (s : NPCState) (id : Nat) (evt : Nat) (misn : Mission) :
  (∀ s2 : NPCState, npc_rm_event id evt s = (0, s2) →
     ∃ pre x post, s.arr.getD [] = pre ++ x :: post ∧ s2.arr = some (pre ++ post) ∧
       npc_getArraySize s2 + 1 = npc_getArraySize s) ∧
  (∀ s2 : NPCState, npc_rm_mission id misn s = (0, s2) →
     ∃ pre x post, s.arr.getD [] = pre ++ x :: post ∧ s2.arr = some (pre ++ post) ∧
       npc_getArraySize s2 + 1 = npc_getArraySize s) := by
  constructor
  · intro s2 h
    unfold npc_rm_event at h
    cases hscan : npc_rm_scan (evtCheck evt) id (s.arr.getD []) with
    | none => rw [hscan] at h; simp at h
    | some r =>
      rw [hscan] at h
      simp at h
      exact npc_rm_pair_frame (evtCheck evt) id s s2 r hscan h.symm
  · intro s2 h
    unfold npc_rm_mission at h
    cases hscan : npc_rm_scan (misnCheck misn.id) id (s.arr.getD []) with
    | none => rw [hscan] at h; simp at h
    | some r =>
      rw [hscan] at h
      simp at h
      exact npc_rm_pair_frame (misnCheck misn.id) id s s2 r hscan h.symm

/-- C10 witness: removing the single mission record npcC10 (id 4, mission
misnC7) splits the one-element registry and drops the size from 1 to 0. -/
theorem npc_rm_success_frame_witness :
  ∃ pre x post, stC10.arr.getD [] = pre ++ x :: post ∧
    ({ stC10 with arr := some ([] : List NPC_t) } : NPCState).arr = some (pre ++ post) ∧
    npc_getArraySize { stC10 with arr := some ([] : List NPC_t) } + 1 =
      npc_getArraySize stC10 :=
  (npc_rm_success_frame stC10 4 0 misnC7).2
    { stC10 with arr := some ([] : List NPC_t) } (by decide)

/-- C3: approaching an in-bounds giver record with free mission slots
consumes the record exactly on the mission_accept outcomes 0, 2 and -1:
the record is freed and erased and npc_approach returns 1; any other
outcome returns 0 and leaves the registry unchanged. -/
theorem npc_approach_giver_consumed (pm : Nat → Bool) (accept : Int) (i : Nat)
    (s : NPCState) (n : NPC_t)
    (hfull : player_slots_full pm = false)
    (hget : (s.arr.getD [])[i]? = some n)
    (htype : n.type = NPCtype.giver) :
    ((accept = 0 ∨ accept = 2 ∨ accept = -1) →
        npc_approach pm accept (i : Int) s =
          (1, { s with arr := some ((s.arr.getD []).eraseIdx i) })) ∧
    (¬(accept = 0 ∨ accept = 2 ∨ accept = -1) →
        npc_approach pm accept (i : Int) s = (0, s)) := by
  have hlen : i < (s.arr.getD []).length := by
    by_contra hc
    push_neg at hc
    rw [List.getElem?_eq_none hc] at hget
    exact Option.noConfusion hget
  have hcond : ¬((i : Int) < 0 ∨ npc_getArraySize s ≤ (i : Int)) := by
    rw [npc_getArraySize_eq]
    omega
  constructor
  · intro hacc
    simp [npc_approach, hcond, hget, htype, npc_approach_giver, hfull, hacc]
  · intro hacc
    simp [npc_approach, hcond, hget, htype, npc_approach_giver, hfull, hacc]

/-- C3 witness: approaching the lone giver npcC3 with all slots free and
mission_accept outcome 0 destroys the record and empties the registry. -/
theorem npc_approach_giver_consumed_witness :
  npc_approach (fun _ => false) 0 ((0 : Nat) : Int) stC3 =
    (1, { stC3 with arr := some ((stC3.arr.getD []).eraseIdx 0) }) :=
  (npc_approach_giver_consumed (fun _ => false) 0 0 stC3 npcC3
    (by decide) (by decide) (by decide)).1 (Or.inl rfl)

/-- C4: approaching an in-bounds giver record while all player mission
slots are occupied returns the error -1 and leaves the registry unchanged. -/
theorem npc_approach_giver_slots_full (pm : Nat → Bool) (accept : Int) (i : Nat)
    (s : NPCState) (n : NPC_t)
    (hfull : player_slots_full pm = true)
    (hget : (s.arr.getD [])[i]? = some n)
    (htype : n.type = NPCtype.giver) :
    npc_approach pm accept (i : Int) s = (-1, s) := by
  have hlen : i < (s.arr.getD []).length := by
    by_contra hc
    push_neg at hc
    rw [List.getElem?_eq_none hc] at hget
    exact Option.noConfusion hget
  have hcond : ¬((i : Int) < 0 ∨ npc_getArraySize s ≤ (i : Int)) := by
    rw [npc_getArraySize_eq]
    omega
  simp [npc_approach, hcond, hget, htype, npc_approach_giver, hfull]

/-- C4 witness: with every mission slot occupied, approaching the lone
giver npcC3 returns -1 and the registry is untouched. -/
theorem npc_approach_giver_slots_full_witness :
  npc_approach (fun _ => true) 0 ((0 : Nat) : Int) stC3 = (-1, stC3) :=
  npc_approach_giver_slots_full (fun _ => true) 0 0 stC3 npcC3
    (by decide) (by decide) (by decide)

/-- C8: npc_getName, npc_getTexture and npc_getDesc return the NULL
sentinel for every index outside [0, size), in particular -1 and size, and
return the record's field for every in-bounds index. -/
theorem npc_get_accessors_bounds (s : NPCState) (i : Int) :
  ((i < 0 ∨ npc_getArraySize s ≤ i) →
      npc_getName i s = Option.none ∧ npc_getTexture i s = Option.none ∧
        npc_getDesc i s = Option.none) ∧
  (∀ n : NPC_t, 0 ≤ i → (s.arr.getD [])[i.toNat]? = some n →
      npc_getName i s = some n.name ∧ npc_getTexture i s = some n.portrait ∧
        npc_getDesc i s = some n.desc) := by
  constructor
  · intro h
    exact ⟨by simp [npc_getName, h], by simp [npc_getTexture, h], by simp [npc_getDesc, h]⟩
  · intro n hi hget
    have hlen : i.toNat < (s.arr.getD []).length := by
      by_contra hc
      push_neg at hc
      rw [List.getElem?_eq_none hc] at hget
      exact Option.noConfusion hget
    have hcond : ¬(i < 0 ∨ npc_getArraySize s ≤ i) := by
      rw [npc_getArraySize_eq]
      omega
    exact ⟨by simp [npc_getName, hcond, hget], by simp [npc_getTexture, hcond, hget],
      by simp [npc_getDesc, hcond, hget]⟩

/-- C8 witness: on the one-record registry stC8, index -1 yields the NULL
sentinel and index 0 yields the stored fields; index 1 (= size) also
yields the sentinel. -/
theorem npc_get_accessors_bounds_witness :
  (npc_getName (-1) stC8 = Option.none ∧ npc_getTexture (-1) stC8 = Option.none ∧
    npc_getDesc (-1) stC8 = Option.none) ∧
  (npc_getName 1 stC8 = Option.none ∧ npc_getTexture 1 stC8 = Option.none ∧
    npc_getDesc 1 stC8 = Option.none) ∧
  (npc_getName 0 stC8 = some npcC1.name ∧ npc_getTexture 0 stC8 = some npcC1.portrait ∧
    npc_getDesc 0 stC8 = some npcC1.desc) :=
  ⟨(npc_get_accessors_bounds stC8 (-1)).1 (Or.inl (by decide)),
   (npc_get_accessors_bounds stC8 1).1 (Or.inr (by decide)),
   (npc_get_accessors_bounds stC8 0).2 npcC1 (by decide) (by decide)⟩

/-- The id generator after a run of landed adds: it advances by the number
of adds, modulo the unsigned int bound. -/
theorem addSeq_idgen : ∀ (l : List NPC_t) (s : NPCState), s.idgen < UINT_MOD →
    (addSeq l s).idgen = (s.idgen + l.length) % UINT_MOD := by
  intro l
  induction l with
  | nil =>
    intro s hs
    simp [addSeq, Nat.mod_eq_of_lt hs]
  | cons n ns ih =>
    intro s hs
    have h1 : (npc_add true n s).snd.idgen = (s.idgen + 1) % UINT_MOD := by
      simp [npc_add]
    have hstep : addSeq (n :: ns) s = addSeq ns (npc_add true n s).snd := rfl
    rw [hstep, ih _ (by rw [h1]; exact Nat.mod_lt _ (by norm_num [UINT_MOD])), h1]
    simp only [List.length_cons, UINT_MOD]
    omega

/-- C5 counterexample: ids do not increase for the whole process lifetime.
After 2^32 - 1 successful adds from the fresh state the generator sits at
2^32 - 1, and the next successful add appends a record but returns id 0,
which is not greater than the id 1 the first add issued. -/
theorem npc_id_wrap_cex :
  (npc_add true cexNPC (addSeq (List.replicate (UINT_MOD - 1) cexNPC) freshState)).fst = 0 ∧
  (npc_add true cexNPC freshState).fst = 1 ∧
  ¬((npc_add true cexNPC (addSeq (List.replicate (UINT_MOD - 1) cexNPC) freshState)).fst >
      (npc_add true cexNPC freshState).fst) ∧
  (npc_add true cexNPC (addSeq (List.replicate (UINT_MOD - 1) cexNPC) freshState)).snd.arr =
    some ((addSeq (List.replicate (UINT_MOD - 1) cexNPC) freshState).arr.getD [] ++
      [{ cexNPC with id := 0 }]) := by
  have hidgen : (addSeq (List.replicate (UINT_MOD - 1) cexNPC) freshState).idgen =
      UINT_MOD - 1 := by
    rw [addSeq_idgen _ _ (by norm_num [freshState, UINT_MOD]), List.length_replicate]
    norm_num [freshState, UINT_MOD]
  have hwrap : ((UINT_MOD - 1) + 1) % UINT_MOD = 0 := by norm_num [UINT_MOD]
  have h1 : (npc_add true cexNPC
      (addSeq (List.replicate (UINT_MOD - 1) cexNPC) freshState)).fst = 0 := by
    simp [npc_add, hidgen, hwrap]
  have h2 : (npc_add true cexNPC freshState).fst = 1 := by
    norm_num [npc_add, freshState, UINT_MOD]
  refine ⟨h1, h2, ?_, ?_⟩
  · rw [h1, h2]
    omega
  · simp [npc_add, hidgen, hwrap]

/-- C5 amended: as long as fewer than 2^32 ids have been issued, every id
returned by a successful add is strictly greater than every previously
issued id (so all such ids are pairwise distinct); the wraparound of the
32-bit generator breaks this only after 2^32 successful adds. -/
theorem npc_id_monotone (l1 l2 : List NPC_t) (n1 n2 : NPC_t)
    (h : l1.length + l2.length + 2 < UINT_MOD) :
    (npc_add true n2 (addSeq (l1 ++ n1 :: l2) freshState)).fst >
      (npc_add true n1 (addSeq l1 freshState)).fst := by
  have h1 : (addSeq (l1 ++ n1 :: l2) freshState).idgen =
      (l1.length + l2.length + 1) % UINT_MOD := by
    rw [addSeq_idgen _ _ (by norm_num [freshState, UINT_MOD])]
    simp [freshState, List.length_append]
    ring_nf
  have h2 : (addSeq l1 freshState).idgen = l1.length % UINT_MOD := by
    rw [addSeq_idgen _ _ (by norm_num [freshState, UINT_MOD])]
    simp [freshState]
  simp only [npc_add, if_pos, h1, h2]
  simp only [UINT_MOD] at h ⊢
  omega

/-- C5 amended witness: in the two-add sequence from the fresh state the
second id (2) is strictly greater than the first (1). -/
theorem npc_id_monotone_witness :
  (npc_add true cexNPC (addSeq ([] ++ cexNPC :: []) freshState)).fst >
    (npc_add true cexNPC (addSeq [] freshState)).fst :=
  npc_id_monotone [] [] cexNPC cexNPC (by decide)
